import Mathlib

/-!
Verification of the AOS-Kernel gated-execution and recovery core.

Shallow embedding of:
  * `core/permission_gateway.py` (risk classification, approval state),
  * `agents/execution_agent.py`  (orchestrating `run` loop),
  * `agents/verification_agent.py` (verdict computation),
  * `agents/recovery_agent.py`   (retry ceiling, REPLAN plan surgery).

Python dicts are modelled as association lists with unique keys
(first-match lookup, in-place update, single removal), Python `None`-able
values as `Option`, and external collaborators (the LLM strategist, the
Docker sandbox, the step-to-code resolver, the filesystem `os.path.abspath`)
as explicit function parameters, since their behaviour is environmental.
Python `\s` in the path regexes is modelled with `Char.isWhitespace`.
-/

namespace AOS

/-- Association-list lookup: first entry with the given key (dict lookup). -/
def alookup {α : Type} : List (String × α) → String → Option α
  | [], _ => none
  | p :: rest, k => if p.1 = k then some p.2 else alookup rest k

/-- Association-list update: replace the first entry with the key, else
append at the end (Python dict assignment; keys are unique in all states
the code builds, so replace-first is dict semantics). -/
def aset {α : Type} : List (String × α) → String → α → List (String × α)
  | [], k, v => [(k, v)]
  | p :: rest, k, v => if p.1 = k then (k, v) :: rest else p :: aset rest k v

/-- Association-list removal of the first entry with the key
(`dict.pop(key, None)` on a unique-key dict). -/
def apop {α : Type} : List (String × α) → String → List (String × α)
  | [], _ => []
  | p :: rest, k => if p.1 = k then rest else p :: apop rest k

/-- Does the second char list start with the first? -/
def charsStartWith : List Char → List Char → Bool
  | [], _ => true
  | _ :: _, [] => false
  | a :: as, b :: bs => a = b && charsStartWith as bs

/-- Does the second char list contain the first as a contiguous run? -/
def charsContain (pat : List Char) (s : List Char) : Bool :=
  match s with
  | [] => charsStartWith pat []
  | _ :: rest => charsStartWith pat s || charsContain pat rest

/-- `s.startswith(pre)` (char-level, kernel-reducible). -/
def strStartsWith (s pre : String) : Bool :=
  charsStartWith pre.data s.data

/-- Python `str.strip()` (char-level). -/
def pyStrip (s : String) : String :=
  String.mk (((s.data.dropWhile Char.isWhitespace).reverse.dropWhile
    Char.isWhitespace).reverse)

/-- Python `str.lower()` (char-level; ASCII case fold, like `Char.toLower`). -/
def strLower (s : String) : String :=
  String.mk (s.data.map Char.toLower)

/-- Python `str.upper()` (char-level). -/
def strUpper (s : String) : String :=
  String.mk (s.data.map Char.toUpper)

/-- Python slicing `s[:n]` (char-level). -/
def strTake (s : String) (n : Nat) : String :=
  String.mk (s.data.take n)

/-- Python `x in l` for a list/set of strings (char-level equality). -/
def memberStr (l : List String) (s : String) : Bool :=
  l.any (fun t => t = s)

/-- `parameters` sub-dict of a step: only the path-like keys the gateway
and the executor ever read. -/
structure Params where
  path : Option String := none
  file_path : Option String := none
  file : Option String := none
  target : Option String := none
deriving DecidableEq

/-- One plan step (a Python dict; absent keys are `none`). -/
structure Step where
  step_id : Option Int := none
  description : Option String := none
  tool : Option String := none
  expected_outcome : Option String := none
  parameters : Option Params := none
  path : Option String := none
  file_path : Option String := none
  file : Option String := none
  target : Option String := none
  code : Option String := none
  command : Option String := none
deriving DecidableEq

/-- A `Result` record written into `execution_results`. The exception
branch of `ExecutionAgent.run` omits `stdout`/`stderr`/`exit_code`,
hence the `Option`s. -/
structure ResultR where
  result : String := ""
  stdout : Option String := none
  stderr : Option String := none
  exit_code : Option Int := none
  success : Bool := false
  error : Option String := none
deriving DecidableEq

/-- A `Verdict` record written into `verification_feedback`. -/
structure Verdict where
  status : String
  reason : String
  expected_outcome : String
deriving DecidableEq

/-- The `memory` side-channel dict: only the keys the core reads/writes.
A key absent and a key present with value `None` are both `none`
(every access goes through `memory.get`/`memory.pop`). -/
structure Memory where
  pending_approval_step : Option Step := none
  pending_approval_risk : Option String := none
  pending_approval_step_id : Option Int := none
  allow_retry_failed_steps : Bool := false
  recovery_reason : Option String := none
deriving DecidableEq

/-- `AOSState` (`core/state.py`): the single mutable task aggregate. -/
structure AOSState where
  intent : String := ""
  plan : List Step := []
  execution_results : List (String × ResultR) := []
  verification_feedback : List (String × Verdict) := []
  retry_count : Nat := 0
  current_phase : Option String := none
  error : Option String := none
  memory : Memory := {}
deriving DecidableEq

/-- `f"step_{step_id}"` where `step_id` may be `None`. -/
def stepKey : Option Int → String
  | none => "step_" ++ "None"
  | some n => "step_" ++ toString n

/-- Risk levels of the gateway. -/
inductive RiskLevel where
  | SAFE
  | RISKY
  | DANGEROUS
deriving DecidableEq

/-- `.value` of the risk enum. -/
def RiskLevel.val : RiskLevel → String
  | .SAFE => "SAFE"
  | .RISKY => "RISKY"
  | .DANGEROUS => "DANGEROUS"

/-- `StepVerificationResult` returned by `verify_step`. -/
structure StepVerificationResult where
  allowed : Bool
  risk_level : RiskLevel
  reason : String
  step_id : Option Int := none
  step_snapshot : Option Step := none
deriving DecidableEq

/-- The gateway: the workspace path it was configured with, plus the
environmental `os.path.abspath(·).replace("\\", "/")` function (depends
on the process working directory, so it is a parameter). -/
structure PermissionGateway where
  workspace_path : String := "./sandbox_workspace"
  env_abspath : String → String

/-- `_norm_workspace`: absolute workspace root. -/
def normWorkspace (gw : PermissionGateway) : String :=
  gw.env_abspath gw.workspace_path

/-- `_path_in_workspace`. -/
def path_in_workspace (gw : PermissionGateway) (path : String) : Bool :=
  if pyStrip path = "" then false
  else
    let p := gw.env_abspath (pyStrip path)
    let ws := normWorkspace gw
    decide (p = ws) || strStartsWith p (ws ++ "/")

/-- Double-quote character (regex classes below exclude it). -/
def dquoteChar : Char := Char.ofNat 34

/-- Single-quote character. -/
def squoteChar : Char := Char.ofNat 39

/-- Backslash character. -/
def backslashChar : Char := Char.ofNat 92

/-- Character class `[^\s"']` of the drive-letter path regex. -/
def notWsQuote (c : Char) : Bool :=
  !(c.isWhitespace || c = dquoteChar || c = squoteChar)

/-- Scanner for `(?i)[A-Za-z]:[/\\][^\s"']+` (`re.finditer`: leftmost,
non-overlapping, greedy).  The `Nat` argument is pure termination fuel
(each call strictly shortens the char list, so `l.length` fuel is always
enough); structural recursion keeps the scanner kernel-reducible. -/
def winScanAux : Nat → List Char → List String
  | 0, _ => []
  | fuel + 1, c :: ':' :: c2 :: rest2 =>
    if c.isAlpha ∧ (c2 = '/' ∨ c2 = backslashChar) then
      let run := rest2.takeWhile notWsQuote
      if run.isEmpty then winScanAux fuel (':' :: c2 :: rest2)
      else String.mk (c :: ':' :: c2 :: run) :: winScanAux fuel (rest2.drop run.length)
    else winScanAux fuel (':' :: c2 :: rest2)
  | fuel + 1, _ :: rest => winScanAux fuel rest
  | _ + 1, [] => []

/-- All drive-letter path matches in a string. -/
def winScan (l : List Char) : List String :=
  winScanAux l.length l

/-- Character class `[a-zA-Z0-9_.-]`. -/
def unixCls1 (c : Char) : Bool :=
  c.isAlphanum || c = '_' || c = '.' || c = '-'

/-- Character class `[/\w.-]`. -/
def unixCls2 (c : Char) : Bool :=
  c = '/' || c.isAlphanum || c = '_' || c = '.' || c = '-'

/-- Scanner for `/[a-zA-Z0-9_.-]+[/\w.-]*` (`re.finditer`); fuel as in
`winScanAux`. -/
def unixScanAux : Nat → List Char → List String
  | 0, _ => []
  | fuel + 1, '/' :: rest =>
    let run1 := rest.takeWhile unixCls1
    if run1.isEmpty then unixScanAux fuel rest
    else
      let rest2 := rest.drop run1.length
      let run2 := rest2.takeWhile unixCls2
      String.mk ('/' :: (run1 ++ run2)) :: unixScanAux fuel (rest2.drop run2.length)
  | fuel + 1, _ :: rest => unixScanAux fuel rest
  | _ + 1, [] => []

/-- All Unix absolute path matches in a string. -/
def unixScan (l : List Char) : List String :=
  unixScanAux l.length l

/-- Append `v.strip()` when `v` is a non-blank string (the per-key body of
`_extract_paths_from_step`'s two key loops). -/
def appendIfStr (acc : List String) (v : Option String) : List String :=
  match v with
  | some s => if pyStrip s = "" then acc else acc ++ [pyStrip s]
  | none => acc

/-- `_extract_paths_from_step`. -/
def extract_paths_from_step (step : Step) : List String :=
  let desc := step.description.getD "" ++ " " ++ step.tool.getD ""
  let l1 := [step.path, step.file_path, step.file, step.target].foldl appendIfStr []
  let l2 :=
    match step.parameters with
    | some ps => [ps.path, ps.file_path, ps.file, ps.target, ps.file_path].foldl appendIfStr []
    | none => []
  let l3 := (winScan desc.data).map pyStrip
  let l4 := ((unixScan desc.data).map pyStrip).filter
    (fun p => decide (1 < p.length) && !strStartsWith p "//")
  l1 ++ l2 ++ l3 ++ l4

/-- `":" in raw[:2]`. -/
def colonInFirst2 (raw : String) : Bool :=
  (raw.data.take 2).contains ':'

/-- `_has_path_outside_workspace`. -/
def has_path_outside_workspace (gw : PermissionGateway) (step : Step) : Bool :=
  (extract_paths_from_step step).any fun raw =>
    if raw = "" then false
    else if !strStartsWith raw "/" && !colonInFirst2 raw then false
    else !path_in_workspace gw raw

/-- Substring test (Python `kw in s`). -/
def strContains (s pat : String) : Bool :=
  charsContain pat.data s.data

/-- `SAFE_TOOLS`. -/
def SAFE_TOOLS : List String :=
  ["file_system_reader", "file_reader", "log_frequency_analyzer", "list_dir"]

/-- `RISKY_KEYWORDS`. -/
def RISKY_KEYWORDS : List String :=
  ["写入", "写", "创建", "create", "write", "install", "pip", "网络", "network",
   "request", "curl", "wget"]

/-- `RISKY_TOOLS`. -/
def RISKY_TOOLS : List String :=
  ["file_writer", "code_writer", "python_interpreter"]

/-- `DANGEROUS_KEYWORDS`. -/
def DANGEROUS_KEYWORDS : List String :=
  ["删除", "remove", "rm ", "unlink", "系统目录", "system", "/etc", "/usr",
   "二进制", "exec", "subprocess", "shell"]

/-- `DANGEROUS_TOOLS` (empty in the source). -/
def DANGEROUS_TOOLS : List String := []

/-- `_apply_awaiting_approval`. -/
def applyAwaitingApproval (state : Option AOSState) (r : StepVerificationResult) :
    Option AOSState :=
  match state with
  | none => none
  | some st => some
    { st with
      current_phase := some "awaiting_user_approval"
      error := some r.reason
      memory :=
        { st.memory with
          pending_approval_step := r.step_snapshot
          pending_approval_risk := some r.risk_level.val
          pending_approval_step_id := r.step_id } }

/-- `PermissionGateway.verify_step`: classify one step and, on non-allow
(with a state supplied), park the task in `awaiting_user_approval`. -/
def verify_step (gw : PermissionGateway) (step : Step) (state : Option AOSState) :
    StepVerificationResult × Option AOSState :=
  let step_id := step.step_id
  let description := strLower (step.description.getD "")
  let tool := strLower (pyStrip (step.tool.getD ""))
  if has_path_outside_workspace gw step then
    let r : StepVerificationResult :=
      ⟨false, .DANGEROUS, "步骤涉及工作区外路径，仅允许访问 sandbox_workspace 内",
        step_id, some step⟩
    (r, applyAwaitingApproval state r)
  else if DANGEROUS_KEYWORDS.any (fun kw => strContains description kw || strContains tool kw) then
    let r : StepVerificationResult :=
      ⟨false, .DANGEROUS, "步骤涉及危险操作：" ++ (if description ≠ "" then description else tool),
        step_id, some step⟩
    (r, applyAwaitingApproval state r)
  else if memberStr DANGEROUS_TOOLS tool then
    let r : StepVerificationResult :=
      ⟨false, .DANGEROUS, "工具 " ++ tool ++ " 属于危险级别", step_id, some step⟩
    (r, applyAwaitingApproval state r)
  else if RISKY_KEYWORDS.any (fun kw => strContains description kw || strContains tool kw) then
    let r : StepVerificationResult :=
      ⟨false, .RISKY,
        "步骤涉及风险操作（写入/安装/网络）：" ++ (if description ≠ "" then description else tool),
        step_id, some step⟩
    (r, applyAwaitingApproval state r)
  else if memberStr RISKY_TOOLS tool then
    let r : StepVerificationResult :=
      ⟨false, .RISKY, "工具 " ++ tool ++ " 需要用户批准后执行", step_id, some step⟩
    (r, applyAwaitingApproval state r)
  else if memberStr SAFE_TOOLS tool then
    (⟨true, .SAFE, "只读操作且限定在工作区内", step_id, some step⟩, state)
  else
    let r : StepVerificationResult :=
      ⟨false, .RISKY, "未识别的工具或操作，需要批准：" ++ (if tool ≠ "" then tool else description),
        step_id, some step⟩
    (r, applyAwaitingApproval state r)

/-- `PermissionGateway.approve_step`: clear the displayed pending info but
keep `pending_approval_step_id`. -/
def approve_step (st : AOSState) : AOSState :=
  { st with
    current_phase := some "execution"
    error := none
    memory :=
      { st.memory with
        pending_approval_step := none
        pending_approval_risk := none } }

/-- The external pieces the orchestrator dispatches to:
`_code_or_command_for_step` (LLM-backed step-to-payload resolution,
returning `(code, command, kind)`) and the two Docker calls (which can
raise, hence `Except`). -/
structure RunEnv where
  resolveStep : Step → AOSState → Option String × Option String × String
  execPython : String → Except String (String × String × Int)
  execShell : String → Except String (String × String × Int)

/-- Python truthiness of an optional string (`None` and `""` are falsy). -/
def pyTruthy (o : Option String) : Bool :=
  match o with
  | some s => decide (s ≠ "")
  | none => false

/-- Lines 222–242 of `ExecutionAgent.run`: resolve the step to a payload,
run it in the sandbox, and build the `Result` record (including the
`"no code/command"` fallback and the exception branch). -/
def executeStepResult (env : RunEnv) (step : Step) (st : AOSState) : ResultR :=
  let rck := env.resolveStep step st
  let code := rck.1
  let command := rck.2.1
  let kind := rck.2.2
  let outcome :=
    if kind = "python" ∧ pyTruthy code then env.execPython (code.getD "")
    else if kind = "shell" ∧ pyTruthy command then env.execShell (command.getD "")
    else Except.ok ("", "no code/command", (-1 : Int))
  match outcome with
  | Except.ok (out, err, ec) =>
    { result := if out ≠ "" then out else err
      stdout := some out
      stderr := some err
      exit_code := some ec
      success := decide (ec = 0)
      error := none }
  | Except.error e =>
    { result := e, stdout := none, stderr := none, exit_code := none,
      success := false, error := some e }

/-- The per-step loop of `ExecutionAgent.run`: skip successful (and,
without the retry flag, failed) steps, gateway-check unless pre-approved,
halt on disallow, otherwise execute and record. -/
def runStepsLoop (env : RunEnv) (gw : PermissionGateway)
    (just_approved allow_retry : Bool) : List Step → AOSState → AOSState
  | [], st => st
  | step :: rest, st =>
    let key := stepKey step.step_id
    let proceed : Bool :=
      match alookup st.execution_results key with
      | some existing => if existing.success then false else allow_retry
      | none => true
    if proceed then
      let checked :=
        if just_approved then (true, st)
        else
          let vr := verify_step gw step (some st)
          (vr.1.allowed, vr.2.getD st)
      if checked.1 then
        let st2 :=
          { checked.2 with
            execution_results :=
              aset checked.2.execution_results key (executeStepResult env step checked.2) }
        runStepsLoop env gw just_approved allow_retry rest st2
      else checked.2
    else runStepsLoop env gw just_approved allow_retry rest st

/-- `ExecutionAgent.run`. -/
def runAgent (env : RunEnv) (gw : PermissionGateway) (state : AOSState) : AOSState :=
  if state.plan.isEmpty then { state with current_phase := some "execution" }
  else if state.current_phase = some "awaiting_user_approval" then state
  else
    let st0 := { state with current_phase := some "execution" }
    let allow_retry := st0.memory.allow_retry_failed_steps
    let st1 := { st0 with memory := { st0.memory with allow_retry_failed_steps := false } }
    match st1.memory.pending_approval_step_id with
    | some sid =>
      let st2 := { st1 with memory := { st1.memory with pending_approval_step_id := none } }
      runStepsLoop env gw true allow_retry
        (st2.plan.filter (fun s => decide (s.step_id = some sid))) st2
    | none => runStepsLoop env gw false allow_retry st1.plan st1

/-- Verdict status strings. -/
def VERIFY_STATUS_SUCCESS : String := "SUCCESS"

/-- Verdict status string for failure. -/
def VERIFY_STATUS_FAILED : String := "FAILED"

/-- `str(res.get("result", res.get("stdout", "")) or "")` on the records
the executor writes (`result` is always present). -/
def resultTextOf (res : ResultR) : String := res.result

/-- The per-step verdict of `VerificationAgent.verify`; `judge` abstracts
`_semantic_verify(expected, result_text, success)` (an LLM call). -/
def verdictFor (judge : String → String → Bool → String) (use_semantic : Bool)
    (results : List (String × ResultR)) (step : Step) : Verdict :=
  let key := stepKey step.step_id
  let expected := step.expected_outcome.getD ""
  match alookup results key with
  | none =>
    ⟨VERIFY_STATUS_FAILED, "该步骤未产生执行结果（可能被拦截或未执行）", expected⟩
  | some res =>
    let success := res.success
    let result_text := resultTextOf res
    let exit_code := res.exit_code.getD (-1)
    if success ∧ exit_code = 0 then
      ⟨VERIFY_STATUS_SUCCESS, "exit_code=0，执行成功", expected⟩
    else
      let reason :=
        if use_semantic then judge expected result_text success
        else "exit_code=" ++ toString exit_code ++ "，执行失败或异常：" ++ strTake result_text 200
      ⟨VERIFY_STATUS_FAILED, reason, expected⟩

/-- The feedback-writing loop of `VerificationAgent.verify` (the loop
reads `execution_results`, which it never mutates, and assigns one
verdict per plan step). -/
def verifyFeedbackLoop (judge : String → String → Bool → String) (use_semantic : Bool)
    (results : List (String × ResultR)) :
    List Step → List (String × Verdict) → List (String × Verdict)
  | [], fb => fb
  | step :: rest, fb =>
    verifyFeedbackLoop judge use_semantic results rest
      (aset fb (stepKey step.step_id) (verdictFor judge use_semantic results step))

/-- `VerificationAgent.verify`. -/
def verifyState (judge : String → String → Bool → String) (use_semantic : Bool)
    (state : AOSState) : AOSState :=
  let st := { state with current_phase := some "verification" }
  if st.plan.isEmpty then st
  else
    { st with
      verification_feedback :=
        verifyFeedbackLoop judge use_semantic st.execution_results st.plan
          st.verification_feedback }

/-- `has_verification_failures`. -/
def has_verification_failures (state : AOSState) : Bool :=
  state.verification_feedback.any (fun p => decide (p.2.status = VERIFY_STATUS_FAILED))

/-- Strategy constant. -/
def STRATEGY_RETRY : String := "RETRY"

/-- Strategy constant. -/
def STRATEGY_REPLAN : String := "REPLAN"

/-- Strategy constant. -/
def STRATEGY_ABORT : String := "ABORT"

/-- What `RecoveryAgent._call_llm` hands back (a parsed JSON object;
missing keys are `none`). -/
structure StrategistAnswer where
  strategy : Option String := none
  reason : Option String := none
  new_steps : Option (List Step) := none

/-- `(data.get("strategy") or "ABORT").strip().upper()` plus the coercion
of unrecognized strategies to ABORT. -/
def normStrategy (s : Option String) : String :=
  let raw := match s with
    | none => STRATEGY_ABORT
    | some x => if x = "" then STRATEGY_ABORT else x
  let u := strUpper (pyStrip raw)
  if u = STRATEGY_RETRY ∨ u = STRATEGY_REPLAN ∨ u = STRATEGY_ABORT then u
  else STRATEGY_ABORT

/-- `max((s.get("step_id", 0) for s in plan), default=0)`. -/
def maxStepId (plan : List Step) : Int :=
  match plan.map (fun s => s.step_id.getD 0) with
  | [] => 0
  | x :: xs => xs.foldl max x

/-- The in-place renumbering of `new_steps`: a step whose `step_id` is
`None` receives `max_id + 1 + i` (its index in `new_steps`). -/
def renumberNewSteps (maxId : Int) (new_steps : List Step) : List Step :=
  new_steps.enum.map fun p =>
    if p.2.step_id = none then { p.2 with step_id := some (maxId + 1 + (p.1 : Int)) }
    else p.2

/-- Drop the execution result of every feedback entry whose status is
FAILED (lines 142–144 of `recover`). -/
def dropFailedResults (results : List (String × ResultR))
    (fb : List (String × Verdict)) : List (String × ResultR) :=
  fb.foldl (fun acc p => if p.2.status = VERIFY_STATUS_FAILED then apop acc p.1 else acc)
    results

/-- `state.error = state.error or fallback`. -/
def errorOrFallback (e : Option String) (fallback : String) : Option String :=
  match e with
  | some s => if s ≠ "" then some s else some fallback
  | none => some fallback

/-- `RecoveryAgent.recover`; `strategist` abstracts `_call_llm` (the LLM
delegate, including its JSON-failure ABORT fallback).  The
`memory_manager.append_lesson` call is external persistence inside
`try/except: pass` and does not touch the state, so it has no model. -/
def recover (strategist : AOSState → StrategistAnswer) (max_retries : Nat)
    (state : AOSState) : AOSState × String :=
  let st := { state with current_phase := some "recovery" }
  if max_retries ≤ st.retry_count then
    ({ st with error := some ("已达最大重试次数 " ++ toString max_retries ++ "，放弃恢复") },
      STRATEGY_ABORT)
  else
    let data := strategist st
    let strategy := normStrategy data.strategy
    let st := { st with memory := { st.memory with recovery_reason := some (data.reason.getD "") } }
    if strategy = STRATEGY_REPLAN then
      let st :=
        { st with
          execution_results := dropFailedResults st.execution_results st.verification_feedback }
      let new_steps := data.new_steps.getD []
      let st :=
        if new_steps.isEmpty then st
        else { st with plan := st.plan ++ renumberNewSteps (maxStepId st.plan) new_steps }
      ({ st with retry_count := st.retry_count + 1 }, STRATEGY_REPLAN)
    else if strategy = STRATEGY_ABORT then
      ({ st with error := errorOrFallback st.error (st.memory.recovery_reason.getD "恢复层决定放弃") },
        STRATEGY_ABORT)
    else (st, strategy)

/-! ## Association-list laws -/

theorem alookup_aset_self {α : Type} (l : List (String × α)) (k : String) (v : α) :
    alookup (aset l k v) k = some v := by
  induction l with
  | nil => simp [aset, alookup]
  | cons p rest ih =>
    by_cases h : p.1 = k
    · simp [aset, alookup, h]
    · simp [aset, alookup, h, ih]

theorem alookup_aset_ne {α : Type} (l : List (String × α)) (k k' : String) (v : α)
    (h : k' ≠ k) : alookup (aset l k v) k' = alookup l k' := by
  have h' : ¬ k = k' := fun e => h e.symm
  induction l with
  | nil => simp [aset, alookup, h']
  | cons p rest ih =>
    by_cases hp : p.1 = k
    · simp [aset, alookup, hp, h']
    · simp [aset, alookup, hp, ih]

theorem alookup_apop_ne {α : Type} (l : List (String × α)) (k k' : String)
    (h : k ≠ k') : alookup (apop l k') k = alookup l k := by
  induction l with
  | nil => simp [apop]
  | cons p rest ih =>
    by_cases hp : p.1 = k'
    · have h' : ¬ k' = k := fun e => h e.symm
      simp [apop, alookup, hp, h']
    · simp [apop, alookup, hp, ih]

theorem alookup_apop_of_none {α : Type} (l : List (String × α)) (k k' : String) :
    alookup l k = none → alookup (apop l k') k = none := by
  induction l with
  | nil => intro _; simp [apop, alookup]
  | cons p rest ih =>
    intro h
    have hp1 : ¬ p.1 = k := by intro e; simp [alookup, e] at h
    have hrest : alookup rest k = none := by simpa [alookup, hp1] using h
    by_cases hp : p.1 = k'
    · simpa [apop, hp] using hrest
    · simp [apop, alookup, hp, hp1]
      exact ih hrest

theorem alookup_eq_none_of_not_mem {α : Type} (l : List (String × α)) (k : String)
    (h : k ∉ l.map Prod.fst) : alookup l k = none := by
  induction l with
  | nil => simp [alookup]
  | cons p rest ih =>
    simp only [List.map_cons, List.mem_cons, not_or] at h
    have hp : ¬ p.1 = k := fun e => h.1 e.symm
    simp [alookup, hp, ih h.2]

theorem alookup_apop_self {α : Type} (l : List (String × α)) (k : String) :
    (l.map Prod.fst).Nodup → alookup (apop l k) k = none := by
  induction l with
  | nil => intro _; simp [apop, alookup]
  | cons p rest ih =>
    intro h
    rw [List.map_cons, List.nodup_cons] at h
    by_cases hp : p.1 = k
    · have : alookup rest k = none := by
        apply alookup_eq_none_of_not_mem
        rw [← hp]
        exact h.1
      simpa [apop, hp] using this
    · simp [apop, alookup, hp]
      exact ih h.2

theorem apop_sublist {α : Type} (l : List (String × α)) (k : String) :
    (apop l k).Sublist l := by
  induction l with
  | nil => simp [apop]
  | cons p rest ih =>
    by_cases hp : p.1 = k
    · simp [apop, hp]
    · simp only [apop, if_neg hp]
      exact ih.cons₂ p

theorem nodup_keys_apop {α : Type} (l : List (String × α)) (k : String)
    (h : (l.map Prod.fst).Nodup) : ((apop l k).map Prod.fst).Nodup := by
  induction l with
  | nil => simp [apop]
  | cons p rest ih =>
    rw [List.map_cons, List.nodup_cons] at h
    by_cases hp : p.1 = k
    · simpa [apop, hp] using h.2
    · rw [show apop (p :: rest) k = p :: apop rest k from by simp [apop, hp]]
      rw [List.map_cons, List.nodup_cons]
      refine ⟨fun hmem => h.1 ?_, ih h.2⟩
      exact ((apop_sublist rest k).map Prod.fst).subset hmem

/-! ## C10: a gateway result is allowed exactly when it is SAFE -/

/-- C10: for every step and every (possibly absent) state, the
`StepVerificationResult` of `PermissionGateway.verify_step` satisfies
`allowed = (risk_level == SAFE)`: every RISKY or DANGEROUS classification
is disallowed and every allowed result is classified SAFE, including the
default (unrecognized tool/description) case, which yields RISKY and
disallowed. -/
theorem verify_step_allowed_iff_safe (gw : PermissionGateway) (step : Step)
    (state : Option AOSState) :
    (verify_step gw step state).1.allowed = true ↔
      (verify_step gw step state).1.risk_level = RiskLevel.SAFE := by
  unfold verify_step
  dsimp only
  split_ifs <;> simp

/-- The classification part of `verify_step` ignores the state argument,
and the returned state is the input state on allow and the
awaiting-approval mutation on disallow. -/
theorem verify_step_state_split (gw : PermissionGateway) (step : Step) (st : AOSState) :
    verify_step gw step (some st) =
      ((verify_step gw step none).1,
        if (verify_step gw step none).1.allowed = true then some st
        else applyAwaitingApproval (some st) (verify_step gw step none).1) := by
  unfold verify_step
  dsimp only
  split_ifs <;> simp_all

/-! ## C1: an absolute path outside the workspace dominates classification -/

/-- C1: any extracted path-like token that is absolute (Unix absolute or
drive-letter) and resolves outside the workspace root makes `verify_step`
return DANGEROUS with `allowed = false`, regardless of the step's tool or
keyword content (the path check is the first branch); and steps whose
extracted tokens are all relative can never trigger the path rule. -/
theorem path_outside_workspace_dominates :
    (∀ (gw : PermissionGateway) (step : Step) (state : Option AOSState) (raw : String),
        raw ∈ extract_paths_from_step step →
        (strStartsWith raw "/" || colonInFirst2 raw) = true →
        path_in_workspace gw raw = false →
        (verify_step gw step state).1.risk_level = RiskLevel.DANGEROUS ∧
          (verify_step gw step state).1.allowed = false) ∧
    (∀ (gw : PermissionGateway) (step : Step),
        (∀ raw ∈ extract_paths_from_step step,
          (strStartsWith raw "/" || colonInFirst2 raw) = false) →
        has_path_outside_workspace gw step = false) := by
  constructor
  · intro gw step state raw hmem habs hout
    have hne : raw ≠ "" := by
      intro h
      subst h
      exact absurd habs (by decide)
    have hhas : has_path_outside_workspace gw step = true := by
      unfold has_path_outside_workspace
      rw [List.any_eq_true]
      refine ⟨raw, hmem, ?_⟩
      rw [if_neg hne]
      have hcond : (!strStartsWith raw "/" && !colonInFirst2 raw) = false := by
        cases h1 : strStartsWith raw "/" <;> cases h2 : colonInFirst2 raw <;> simp_all
      rw [hcond]
      simp [hout]
    unfold verify_step
    dsimp only
    rw [if_pos hhas]
    exact ⟨rfl, rfl⟩
  · intro gw step h
    unfold has_path_outside_workspace
    simp only [List.any_eq_false]
    intro raw hmem
    by_cases hne : raw = ""
    · simp [hne]
    · have hflat := h raw hmem
      have h1 : strStartsWith raw "/" = false := by
        cases hsw : strStartsWith raw "/" <;> simp_all
      have h2 : colonInFirst2 raw = false := by
        cases hc : colonInFirst2 raw <;> simp_all
      simp [hne, h1, h2]

/-- Concrete gateway for the C1 witness: Unix-style `abspath` resolving
relative paths under `/cwd`. -/
def c1Gw : PermissionGateway :=
  { workspace_path := "/cwd/sandbox_workspace"
    env_abspath := fun s => if strStartsWith s "/" then s else "/cwd/" ++ s }

/-- Concrete step for the C1 witness: a read-only tool whose description
names `/etc/passwd`. -/
def c1Step : Step :=
  { step_id := some 1, description := some "read /etc/passwd file",
    tool := some "file_reader" }

/-- Witness for C1: the conclusion at a concrete absolute out-of-workspace
path, with every hypothesis discharged by evaluation. -/
theorem path_outside_workspace_dominates_witness :
    ("/etc/passwd" ∈ extract_paths_from_step c1Step ∧
      (strStartsWith "/etc/passwd" "/" || colonInFirst2 "/etc/passwd") = true ∧
      path_in_workspace c1Gw "/etc/passwd" = false) ∧
    (verify_step c1Gw c1Step none).1.risk_level = RiskLevel.DANGEROUS ∧
      (verify_step c1Gw c1Step none).1.allowed = false :=
  have hmem : "/etc/passwd" ∈ extract_paths_from_step c1Step := by
    rw [show extract_paths_from_step c1Step = ["/etc/passwd"] from by decide]
    exact List.mem_singleton.mpr rfl
  ⟨⟨hmem, by decide, by decide⟩,
    path_outside_workspace_dominates.1 c1Gw c1Step none "/etc/passwd"
      hmem (by decide) (by decide)⟩

/-! ## C2: the retry ceiling forces ABORT without consulting the strategist -/

/-- C2: whenever `retry_count >= max_retries`, `RecoveryAgent.recover`
returns strategy ABORT, sets `state.error` to the ceiling message, and the
result does not depend on the strategist delegate (so no LLM call is
observable). -/
theorem recover_at_ceiling_aborts (f g : AOSState → StrategistAnswer)
    (max_retries : Nat) (st : AOSState) (h : max_retries ≤ st.retry_count) :
    (recover f max_retries st).2 = STRATEGY_ABORT ∧
    (recover f max_retries st).1.error =
      some ("已达最大重试次数 " ++ toString max_retries ++ "，放弃恢复") ∧
    recover f max_retries st = recover g max_retries st := by
  unfold recover
  simp [h]

/-- Witness for C2 at a concrete state sitting exactly at the ceiling,
with two observably different strategists. -/
theorem recover_at_ceiling_aborts_witness :
    (recover (fun _ => { strategy := some "REPLAN" }) 3 { retry_count := 3 }).2 =
        STRATEGY_ABORT ∧
    (recover (fun _ => { strategy := some "REPLAN" }) 3 { retry_count := 3 }).1.error =
      some ("已达最大重试次数 " ++ toString 3 ++ "，放弃恢复") ∧
    recover (fun _ => { strategy := some "REPLAN" }) 3 { retry_count := 3 } =
      recover (fun _ => { strategy := some "RETRY" }) 3 { retry_count := 3 } :=
  recover_at_ceiling_aborts (fun _ => { strategy := some "REPLAN" })
    (fun _ => { strategy := some "RETRY" }) 3 { retry_count := 3 } (by decide)

/-! ## C4: rerunning a fully successful plan re-executes nothing -/

/-- The per-step loop leaves the state untouched when every listed step
already has a successful result. -/
theorem runStepsLoop_skips_all (env : RunEnv) (gw : PermissionGateway)
    (j a : Bool) (steps : List Step) (st : AOSState)
    (h : ∀ s ∈ steps, ∃ r,
      alookup st.execution_results (stepKey s.step_id) = some r ∧ r.success = true) :
    runStepsLoop env gw j a steps st = st := by
  induction steps with
  | nil => rfl
  | cons s rest ih =>
    obtain ⟨r, hr, hs⟩ := h s (by simp)
    have ih' := ih fun s' hmem => h s' (by simp [hmem])
    simp only [runStepsLoop]
    rw [hr]
    simp only [hs, if_true]
    simpa using ih'

/-- C4: if every plan step already has a successful execution result,
another `ExecutionAgent.run` leaves `execution_results` identical — run is
idempotent at the plan level. -/
theorem run_noop_after_success (env : RunEnv) (gw : PermissionGateway) (st : AOSState)
    (h : ∀ s ∈ st.plan, ∃ r,
      alookup st.execution_results (stepKey s.step_id) = some r ∧ r.success = true) :
    (runAgent env gw st).execution_results = st.execution_results := by
  unfold runAgent
  by_cases hempty : st.plan.isEmpty
  · simp [hempty]
  · rw [if_neg (by simpa using hempty)]
    by_cases hph : st.current_phase = some "awaiting_user_approval"
    · simp [hph]
    · rw [if_neg hph]
      dsimp only
      cases hpend : st.memory.pending_approval_step_id with
      | some sid =>
        dsimp only
        refine Eq.trans (congrArg AOSState.execution_results
          (runStepsLoop_skips_all _ _ _ _ _ _ ?_)) rfl
        intro s hmem
        exact h s (List.mem_of_mem_filter hmem)
      | none =>
        dsimp only
        refine Eq.trans (congrArg AOSState.execution_results
          (runStepsLoop_skips_all _ _ _ _ _ _ ?_)) rfl
        intro s hmem
        exact h s hmem

/-- Concrete run environment for the C4 witness. -/
def c4Env : RunEnv :=
  { resolveStep := fun _ _ => (none, none, "python")
    execPython := fun _ => Except.ok ("", "", 0)
    execShell := fun _ => Except.ok ("", "", 0) }

/-- Concrete gateway for the C4 witness. -/
def c4Gw : PermissionGateway :=
  { workspace_path := "/ws", env_abspath := fun s => s }

/-- Concrete already-succeeded step for the C4 witness. -/
def c4Step : Step :=
  { step_id := some 1, description := some "read a.txt", tool := some "file_reader" }

/-- Concrete fully-successful state for the C4 witness. -/
def c4St : AOSState :=
  { plan := [c4Step]
    execution_results :=
      [("step_1", { result := "ok", stdout := some "ok", stderr := some "",
                    exit_code := some 0, success := true })] }

/-- Witness for C4 at a concrete one-step successful state. -/
theorem run_noop_after_success_witness :
    (runAgent c4Env c4Gw c4St).execution_results = c4St.execution_results :=
  run_noop_after_success c4Env c4Gw c4St (by
    intro s hs
    rw [show c4St.plan = [c4Step] from rfl, List.mem_singleton] at hs
    subst hs
    exact ⟨{ result := "ok", stdout := some "ok", stderr := some "",
             exit_code := some 0, success := true }, by decide, rfl⟩)

/-! ## C8: verdict assignment and failure detection -/

/-- The verdict status the claim predicts for a key: FAILED when no result
exists, SUCCESS when `success` and `exit_code == 0`, FAILED otherwise. -/
def statusOfKey (results : List (String × ResultR)) (k : String) : String :=
  match alookup results k with
  | none => VERIFY_STATUS_FAILED
  | some res =>
    if res.success = true ∧ res.exit_code.getD (-1) = 0 then VERIFY_STATUS_SUCCESS
    else VERIFY_STATUS_FAILED

/-- A verdict's status depends only on the looked-up result. -/
theorem verdictFor_status (judge : String → String → Bool → String) (u : Bool)
    (results : List (String × ResultR)) (step : Step) :
    (verdictFor judge u results step).status =
      statusOfKey results (stepKey step.step_id) := by
  unfold verdictFor statusOfKey
  dsimp only
  cases alookup results (stepKey step.step_id) with
  | none => rfl
  | some res =>
    dsimp only
    split_ifs <;> rfl

/-- Keys no remaining step writes are untouched by the verification loop. -/
theorem verifyLoop_lookup_of_no_key (judge : String → String → Bool → String) (u : Bool)
    (results : List (String × ResultR)) (steps : List Step)
    (fb : List (String × Verdict)) (k : String)
    (h : ∀ s ∈ steps, stepKey s.step_id ≠ k) :
    alookup (verifyFeedbackLoop judge u results steps fb) k = alookup fb k := by
  induction steps generalizing fb with
  | nil => rfl
  | cons s rest ih =>
    rw [verifyFeedbackLoop]
    rw [ih _ fun s' h' => h s' (by simp [h'])]
    exact alookup_aset_ne _ _ _ _ fun e => h s (by simp) e.symm

/-- Every key written by some step of the loop ends with the status the
execution results dictate (the last write wins, and all writes to one key
share a status). -/
theorem verifyLoop_lookup_mem (judge : String → String → Bool → String) (u : Bool)
    (results : List (String × ResultR)) (steps : List Step)
    (fb : List (String × Verdict)) (k : String)
    (hk : ∃ s ∈ steps, stepKey s.step_id = k) :
    ∃ v, alookup (verifyFeedbackLoop judge u results steps fb) k = some v ∧
      v.status = statusOfKey results k := by
  induction steps generalizing fb with
  | nil =>
    obtain ⟨s, hs, _⟩ := hk
    exact absurd hs (List.not_mem_nil s)
  | cons s rest ih =>
    rw [verifyFeedbackLoop]
    by_cases hrest : ∃ s' ∈ rest, stepKey s'.step_id = k
    · exact ih _ hrest
    · have hs : stepKey s.step_id = k := by
        obtain ⟨s', hs', hk'⟩ := hk
        rcases List.mem_cons.mp hs' with hh | hh
        · subst hh
          exact hk'
        · exact absurd ⟨s', hh, hk'⟩ hrest
      push_neg at hrest
      rw [verifyLoop_lookup_of_no_key _ _ _ _ _ _ hrest]
      rw [← hs, alookup_aset_self]
      exact ⟨_, rfl, verdictFor_status judge u results s⟩

/-- C8: after `VerificationAgent.verify`, every plan step's verdict is
FAILED when it has no execution result, SUCCESS when the result has
`success` and `exit_code == 0`, FAILED otherwise; and
`has_verification_failures` is true iff some verdict is FAILED. -/
theorem verify_verdicts_and_failures (judge : String → String → Bool → String)
    (use_semantic : Bool) (st : AOSState) :
    (∀ step ∈ st.plan,
        ∃ v, alookup (verifyState judge use_semantic st).verification_feedback
            (stepKey step.step_id) = some v ∧
          v.status = statusOfKey st.execution_results (stepKey step.step_id)) ∧
    (has_verification_failures st = true ↔
      ∃ p ∈ st.verification_feedback, p.2.status = VERIFY_STATUS_FAILED) := by
  constructor
  · intro step hstep
    have hne : st.plan.isEmpty = false := by
      cases hp : st.plan with
      | nil =>
        rw [hp] at hstep
        exact absurd hstep (List.not_mem_nil step)
      | cons a l => rfl
    simp only [verifyState, hne]
    exact verifyLoop_lookup_mem _ _ _ _ _ _ ⟨step, hstep, rfl⟩
  · unfold has_verification_failures
    rw [List.any_eq_true]
    constructor
    · rintro ⟨p, hp, hs⟩
      exact ⟨p, hp, of_decide_eq_true hs⟩
    · rintro ⟨p, hp, hs⟩
      exact ⟨p, hp, decide_eq_true hs⟩

/-! ## C5: the loop halts on the first gateway disallow -/

/-- The per-step loop, reaching a non-skipped step the gateway disallows,
returns the awaiting-approval mutation of the current state — later steps
and the executor are never consulted. -/
theorem runStepsLoop_halts (env : RunEnv) (gw : PermissionGateway) (a : Bool)
    (pre post : List Step) (step : Step) (st : AOSState)
    (hpre : ∀ s ∈ pre, ∃ r,
      alookup st.execution_results (stepKey s.step_id) = some r ∧ r.success = true)
    (hproceed : (match alookup st.execution_results (stepKey step.step_id) with
      | some existing => if existing.success then false else a
      | none => true) = true)
    (hdis : (verify_step gw step none).1.allowed = false) :
    runStepsLoop env gw false a (pre ++ step :: post) st =
      { st with
          current_phase := some "awaiting_user_approval"
          error := some (verify_step gw step none).1.reason
          memory := { st.memory with
            pending_approval_step := (verify_step gw step none).1.step_snapshot
            pending_approval_risk := some (verify_step gw step none).1.risk_level.val
            pending_approval_step_id := (verify_step gw step none).1.step_id } } := by
  induction pre with
  | nil =>
    simp only [List.nil_append, runStepsLoop]
    rw [hproceed]
    simp only [if_true, Bool.not_eq_true]
    rw [verify_step_state_split gw step st, hdis]
    simp [applyAwaitingApproval]
  | cons p pre' ih =>
    obtain ⟨r, hr, hs⟩ := hpre p (by simp)
    simp only [List.cons_append, runStepsLoop]
    rw [hr]
    simp only [hs, if_true]
    exact ih fun s hmem => hpre s (by simp [hmem])

/-- Characterization of a `run` pass that reaches a disallowed step after
only already-succeeded steps: it returns the awaiting-approval state with
the gateway's reason and untouched execution results. -/
theorem runAgent_halts (env : RunEnv) (gw : PermissionGateway)
    (pre post : List Step) (step : Step) (st : AOSState)
    (hphase : st.current_phase ≠ some "awaiting_user_approval")
    (hpend : st.memory.pending_approval_step_id = none)
    (hplan : st.plan = pre ++ step :: post)
    (hpre : ∀ s ∈ pre, ∃ r,
      alookup st.execution_results (stepKey s.step_id) = some r ∧ r.success = true)
    (hstep : alookup st.execution_results (stepKey step.step_id) = none)
    (hdis : (verify_step gw step none).1.allowed = false) :
    runAgent env gw st =
      { st with
          current_phase := some "awaiting_user_approval"
          error := some (verify_step gw step none).1.reason
          memory := { st.memory with
            allow_retry_failed_steps := false
            pending_approval_step := (verify_step gw step none).1.step_snapshot
            pending_approval_risk := some (verify_step gw step none).1.risk_level.val
            pending_approval_step_id := (verify_step gw step none).1.step_id } } := by
  unfold runAgent
  rw [if_neg (by simp [hplan]), if_neg hphase]
  dsimp only
  rw [hpend]
  dsimp only
  rw [show ({ st with
      current_phase := some "execution"
      memory := { st.memory with allow_retry_failed_steps := false } } : AOSState).plan =
    pre ++ step :: post from hplan]
  exact runStepsLoop_halts env gw _ pre post step _ hpre (by simp [hstep]) hdis

/-- C5: when the gateway disallows a step mid-plan, the per-step loop
halts at once: later steps are never attempted (the result is the same
for any suffix and any executor), the function returns with
`current_phase = awaiting_user_approval`, `error` is the gateway's
reason, and no execution result is written. -/
theorem run_halts_on_disallowed (env env' : RunEnv) (gw : PermissionGateway)
    (pre post post' : List Step) (step : Step) (st : AOSState)
    (hphase : st.current_phase ≠ some "awaiting_user_approval")
    (hpend : st.memory.pending_approval_step_id = none)
    (hplan : st.plan = pre ++ step :: post)
    (hpre : ∀ s ∈ pre, ∃ r,
      alookup st.execution_results (stepKey s.step_id) = some r ∧ r.success = true)
    (hstep : alookup st.execution_results (stepKey step.step_id) = none)
    (hdis : (verify_step gw step none).1.allowed = false) :
    (runAgent env gw st).current_phase = some "awaiting_user_approval" ∧
    (runAgent env gw st).error = some (verify_step gw step none).1.reason ∧
    (runAgent env gw st).execution_results = st.execution_results ∧
    runAgent env' gw { st with plan := pre ++ step :: post' } =
      { runAgent env gw st with plan := pre ++ step :: post' } := by
  have h1 := runAgent_halts env gw pre post step st hphase hpend hplan hpre hstep hdis
  have h2 := runAgent_halts env' gw pre post' step
    { st with plan := pre ++ step :: post' } hphase hpend rfl hpre hstep hdis
  rw [h1, h2]
  exact ⟨rfl, rfl, rfl, rfl⟩

/-- Concrete environment for the C5 witness. -/
def c5Env : RunEnv :=
  { resolveStep := fun _ _ => (some "print(1)", none, "python")
    execPython := fun _ => Except.ok ("1", "", 0)
    execShell := fun _ => Except.ok ("", "", 0) }

/-- A second, observably different environment for the C5 witness. -/
def c5Env' : RunEnv :=
  { resolveStep := fun _ _ => (none, some "ls", "shell")
    execPython := fun _ => Except.error "unreachable"
    execShell := fun _ => Except.error "unreachable" }

/-- Concrete gateway for the C5 witness. -/
def c5Gw : PermissionGateway :=
  { workspace_path := "/cwd/sandbox_workspace"
    env_abspath := fun s => if strStartsWith s "/" then s else "/cwd/" ++ s }

/-- Concrete risky step for the C5 witness (a `file_writer` write). -/
def c5Step : Step :=
  { step_id := some 2, description := some "write hello.txt",
    tool := some "file_writer" }

/-- Concrete already-succeeded first step for the C5 witness. -/
def c5Done : Step :=
  { step_id := some 1, description := some "read a.txt", tool := some "file_reader" }

/-- Concrete trailing step for the C5 witness (must never run). -/
def c5Later : Step :=
  { step_id := some 3, description := some "read b.txt", tool := some "file_reader" }

/-- Concrete state for the C5 witness. -/
def c5St : AOSState :=
  { plan := [c5Done, c5Step, c5Later]
    execution_results :=
      [("step_1", { result := "ok", exit_code := some 0, success := true })]
    current_phase := some "execution" }

/-- Witness for C5: the risky second step blocks the pass; the third step
is never attempted (swapping it and the whole executor changes nothing
but the stored plan). -/
theorem run_halts_on_disallowed_witness :
    (runAgent c5Env c5Gw c5St).current_phase = some "awaiting_user_approval" ∧
    (runAgent c5Env c5Gw c5St).error = some (verify_step c5Gw c5Step none).1.reason ∧
    (runAgent c5Env c5Gw c5St).execution_results = c5St.execution_results ∧
    runAgent c5Env' c5Gw { c5St with plan := [c5Done] ++ c5Step :: [] } =
      { runAgent c5Env c5Gw c5St with plan := [c5Done] ++ c5Step :: [] } :=
  run_halts_on_disallowed c5Env c5Env' c5Gw [c5Done] [c5Later] [] c5Step c5St
    (by decide) (by decide) (by decide)
    (by
      intro s hs
      rw [show [c5Done] = c5Done :: [] from rfl, List.mem_singleton] at hs
      subst hs
      exact ⟨{ result := "ok", exit_code := some 0, success := true }, by decide, rfl⟩)
    (by decide) (by decide)

/-! ## C9: the awaiting-approval invariant over reachable states -/

/-- The state side of a gateway check (`verify_step(step, state)` with a
state supplied). -/
def verifyStepState (gw : PermissionGateway) (step : Step) (st : AOSState) : AOSState :=
  ((verify_step gw step (some st)).2).getD st

/-- One gateway/orchestrator operation on the task state (the surface the
driver in `main.py` uses: `run`, `approve_step`, `verify`, `recover`, and
gateway checks of plan steps). -/
inductive KernelOp : AOSState → AOSState → Prop where
  | runO (env : RunEnv) (gw : PermissionGateway) (st : AOSState) :
      KernelOp st (runAgent env gw st)
  | approveO (st : AOSState) : KernelOp st (approve_step st)
  | verifyO (judge : String → String → Bool → String) (b : Bool) (st : AOSState) :
      KernelOp st (verifyState judge b st)
  | recoverO (f : AOSState → StrategistAnswer) (mr : Nat) (st : AOSState) :
      KernelOp st (recover f mr st).1
  | gatewayO (gw : PermissionGateway) (step : Step) (st : AOSState)
      (h : step ∈ st.plan) : KernelOp st (verifyStepState gw step st)

/-- Reachability through gateway and orchestrator operations. -/
def Reachable : AOSState → AOSState → Prop := Relation.ReflTransGen KernelOp

/-- The §3 invariant, strengthened to be inductive: awaiting approval
implies a pending id and a nonempty plan, and every plan step has an id. -/
def ApprovalInvariant (st : AOSState) : Prop :=
  (st.current_phase = some "awaiting_user_approval" →
    st.memory.pending_approval_step_id ≠ none ∧ st.plan ≠ []) ∧
  (∀ s ∈ st.plan, s.step_id ≠ none)

/-- The gateway result always snapshots the step's own id. -/
theorem verify_step_result_id (gw : PermissionGateway) (step : Step)
    (state : Option AOSState) :
    (verify_step gw step state).1.step_id = step.step_id := by
  unfold verify_step
  dsimp only
  split_ifs <;> rfl

/-- A gateway check never changes the plan. -/
theorem verifyStepState_plan (gw : PermissionGateway) (step : Step) (st : AOSState) :
    (verifyStepState gw step st).plan = st.plan := by
  unfold verifyStepState
  rw [verify_step_state_split]
  by_cases h : (verify_step gw step none).1.allowed = true
  · rw [if_pos h]
    rfl
  · rw [if_neg h]
    rfl

/-- Shape of one iteration of the per-step loop: skip, execute-and-go-on,
or halt on disallow. -/
theorem runStepsLoop_cons_shape (env : RunEnv) (gw : PermissionGateway)
    (j a : Bool) (step : Step) (rest : List Step) (st : AOSState) :
    runStepsLoop env gw j a (step :: rest) st = runStepsLoop env gw j a rest st ∨
    runStepsLoop env gw j a (step :: rest) st =
      runStepsLoop env gw j a rest
        { st with
            execution_results :=
              aset st.execution_results (stepKey step.step_id)
                (executeStepResult env step st) } ∨
    ((verify_step gw step none).1.allowed = false ∧
      runStepsLoop env gw j a (step :: rest) st = verifyStepState gw step st) := by
  simp only [runStepsLoop]
  cases hl : alookup st.execution_results (stepKey step.step_id) with
  | some existing =>
    by_cases hs : existing.success = true
    · left
      simp [hs]
    · by_cases ha : a = true
      · cases hj : j with
        | true =>
          right; left
          simp [hs, ha]
        | false =>
          rw [verify_step_state_split]
          by_cases hall : (verify_step gw step none).1.allowed = true
          · right; left
            simp [hs, ha, hall]
          · right; right
            refine ⟨by simpa using hall, ?_⟩
            simp only [Bool.not_eq_true] at hs
            simp [hs, ha, hall, verifyStepState, verify_step_state_split]
      · left
        simp only [Bool.not_eq_true] at hs ha
        simp [hs, ha]
  | none =>
    cases hj : j with
    | true =>
      right; left
      simp
    | false =>
      rw [verify_step_state_split]
      by_cases hall : (verify_step gw step none).1.allowed = true
      · right; left
        simp [hall]
      · right; right
        refine ⟨by simpa using hall, ?_⟩
        simp [hall, verifyStepState, verify_step_state_split]

/-- The per-step loop never changes the plan. -/
theorem runStepsLoop_plan (env : RunEnv) (gw : PermissionGateway) (j a : Bool)
    (steps : List Step) (st : AOSState) :
    (runStepsLoop env gw j a steps st).plan = st.plan := by
  induction steps generalizing st with
  | nil => rfl
  | cons step rest ih =>
    rcases runStepsLoop_cons_shape env gw j a step rest st with he | he | ⟨_, he⟩
    · rw [he, ih]
    · rw [he, ih]
    · rw [he, verifyStepState_plan]

/-- If the loop ends awaiting approval, the pending id is set (to the id
of a listed step) and the plan is nonempty. -/
theorem runStepsLoop_awaiting (env : RunEnv) (gw : PermissionGateway) (j a : Bool)
    (steps : List Step) (st : AOSState)
    (hids : ∀ s ∈ steps, s.step_id ≠ none)
    (hsub : ∀ s ∈ steps, s ∈ st.plan)
    (hph : st.current_phase = some "execution") :
    (runStepsLoop env gw j a steps st).current_phase =
        some "awaiting_user_approval" →
      (runStepsLoop env gw j a steps st).memory.pending_approval_step_id ≠ none ∧
      (runStepsLoop env gw j a steps st).plan ≠ [] := by
  induction steps generalizing st with
  | nil =>
    intro hc
    rw [runStepsLoop] at hc
    rw [hph] at hc
    exact absurd hc (by decide)
  | cons step rest ih =>
    rcases runStepsLoop_cons_shape env gw j a step rest st with he | he | ⟨hall, he⟩
    · rw [he]
      exact ih st (fun s hs => hids s (by simp [hs]))
        (fun s hs => hsub s (by simp [hs])) hph
    · rw [he]
      exact ih _ (fun s hs => hids s (by simp [hs]))
        (fun s hs => hsub s (by simp [hs])) hph
    · rw [he]
      intro _
      constructor
      · unfold verifyStepState
        rw [verify_step_state_split, if_neg (by simp [hall])]
        dsimp [applyAwaitingApproval]
        rw [verify_step_result_id]
        exact hids step (by simp)
      · rw [verifyStepState_plan]
        exact List.ne_nil_of_mem (hsub step (by simp))

/-- `run` preserves the approval invariant. -/
theorem runAgent_preserves (env : RunEnv) (gw : PermissionGateway) (st : AOSState)
    (hinv : ApprovalInvariant st) : ApprovalInvariant (runAgent env gw st) := by
  unfold runAgent
  by_cases he : st.plan.isEmpty
  · rw [if_pos he]
    exact ⟨fun hc => absurd (Option.some.inj hc) (by decide), fun s hs => hinv.2 s hs⟩
  · rw [if_neg he]
    by_cases hph : st.current_phase = some "awaiting_user_approval"
    · rw [if_pos hph]
      exact hinv
    · rw [if_neg hph]
      dsimp only
      cases hpend : st.memory.pending_approval_step_id with
      | some sid =>
        dsimp only
        constructor
        · intro hc
          exact runStepsLoop_awaiting env gw true st.memory.allow_retry_failed_steps
            (List.filter (fun s => decide (s.step_id = some sid)) st.plan)
            { st with
                current_phase := some "execution"
                memory := { st.memory with
                  allow_retry_failed_steps := false
                  pending_approval_step_id := none } }
            (fun s hs => hinv.2 s (List.mem_of_mem_filter hs))
            (fun s hs => List.mem_of_mem_filter hs) rfl hc
        · intro s hs
          rw [runStepsLoop_plan] at hs
          exact hinv.2 s hs
      | none =>
        dsimp only
        constructor
        · intro hc
          exact runStepsLoop_awaiting env gw false st.memory.allow_retry_failed_steps
            st.plan
            { st with
                current_phase := some "execution"
                memory := { st.memory with
                  allow_retry_failed_steps := false
                  pending_approval_step_id := none } }
            (fun s hs => hinv.2 s hs) (fun s hs => hs) rfl hc
        · intro s hs
          rw [runStepsLoop_plan] at hs
          exact hinv.2 s hs

/-- Every renumbered REPLAN step carries an id. -/
theorem renumber_id_ne_none (m : Int) (ns : List Step) :
    ∀ t ∈ renumberNewSteps m ns, t.step_id ≠ none := by
  intro t ht
  unfold renumberNewSteps at ht
  obtain ⟨pr, _, hteq⟩ := List.mem_map.mp ht
  by_cases hn : pr.2.step_id = none
  · rw [← hteq, if_pos hn]
    simp
  · rw [← hteq, if_neg hn]
    exact hn

/-- `recover` leaves the phase at `recovery`. -/
theorem recover_phase (f : AOSState → StrategistAnswer) (mr : Nat) (st : AOSState) :
    (recover f mr st).1.current_phase = some "recovery" := by
  unfold recover
  dsimp only
  split_ifs <;> rfl

/-- `recover` keeps every plan step id-carrying. -/
theorem recover_plan_ids (f : AOSState → StrategistAnswer) (mr : Nat) (st : AOSState)
    (h : ∀ s ∈ st.plan, s.step_id ≠ none) :
    ∀ s ∈ (recover f mr st).1.plan, s.step_id ≠ none := by
  unfold recover
  dsimp only
  split_ifs with h1 h2 h3 h4
  · exact h
  · exact h
  · intro s hs
    rcases List.mem_append.mp hs with hh | hh
    · exact h s hh
    · exact renumber_id_ne_none _ _ s hh
  · exact h
  · exact h

/-- `verifyState` leaves the phase at `verification` and the plan intact. -/
theorem verifyState_phase_plan (judge : String → String → Bool → String) (b : Bool)
    (st : AOSState) :
    (verifyState judge b st).current_phase = some "verification" ∧
    (verifyState judge b st).plan = st.plan := by
  unfold verifyState
  dsimp only
  split_ifs <;> exact ⟨rfl, rfl⟩

/-- Every single operation preserves the approval invariant. -/
theorem kernelOp_preserves (st st' : AOSState) (h : KernelOp st st')
    (hinv : ApprovalInvariant st) : ApprovalInvariant st' := by
  cases h with
  | runO env gw st => exact runAgent_preserves env gw st hinv
  | approveO st =>
    exact ⟨fun hc => absurd (Option.some.inj hc) (by decide), fun s hs => hinv.2 s hs⟩
  | verifyO judge b st =>
    refine ⟨fun hc => ?_, fun s hs => ?_⟩
    · rw [(verifyState_phase_plan judge b st).1] at hc
      exact absurd hc (by decide)
    · rw [(verifyState_phase_plan judge b st).2] at hs
      exact hinv.2 s hs
  | recoverO f mr st =>
    refine ⟨fun hc => ?_, recover_plan_ids f mr st hinv.2⟩
    rw [recover_phase] at hc
    exact absurd hc (by decide)
  | gatewayO gw step st hstep =>
    unfold verifyStepState
    rw [verify_step_state_split]
    by_cases hall : (verify_step gw step none).1.allowed = true
    · rw [if_pos hall]
      exact hinv
    · rw [if_neg hall]
      refine ⟨fun _ => ⟨?_, ?_⟩, fun s hs => hinv.2 s hs⟩
      · dsimp [applyAwaitingApproval]
        rw [verify_step_result_id]
        exact hinv.2 step hstep
      · exact List.ne_nil_of_mem hstep

/-- C9: in every state reachable through the gateway and orchestrator
operations from a well-formed state, `awaiting_user_approval` implies a
non-null `pending_approval_step_id`, and `run` on an awaiting state
returns it unchanged (no step executes until the approval is resolved). -/
theorem awaiting_approval_invariant (st st' : AOSState) (h : Reachable st st')
    (hinv : ApprovalInvariant st) :
    (st'.current_phase = some "awaiting_user_approval" →
      st'.memory.pending_approval_step_id ≠ none) ∧
    (∀ env gw, st'.current_phase = some "awaiting_user_approval" →
      runAgent env gw st' = st') := by
  have hinv' : ApprovalInvariant st' := by
    induction h with
    | refl => exact hinv
    | tail hr hop ih => exact kernelOp_preserves _ _ hop ih
  refine ⟨fun hc => (hinv'.1 hc).1, ?_⟩
  intro env gw hc
  unfold runAgent
  rw [if_neg fun hie => (hinv'.1 hc).2 (List.isEmpty_iff.mp hie), if_pos hc]

/-- Concrete environment for the C9 witness. -/
def c9Env : RunEnv :=
  { resolveStep := fun _ _ => (none, none, "python")
    execPython := fun _ => Except.ok ("", "", 0)
    execShell := fun _ => Except.ok ("", "", 0) }

/-- Concrete gateway for the C9 witness. -/
def c9Gw : PermissionGateway :=
  { workspace_path := "/ws", env_abspath := fun s => s }

/-- Concrete awaiting state for the C9 witness. -/
def c9St : AOSState :=
  { plan := [{ step_id := some 1, tool := some "file_writer" }]
    current_phase := some "awaiting_user_approval"
    error := some "需要批准"
    memory := { pending_approval_step_id := some 1
                pending_approval_risk := some "RISKY" } }

/-- Witness for C9 at a concrete awaiting state (reachable reflexively). -/
theorem awaiting_approval_invariant_witness :
    c9St.memory.pending_approval_step_id ≠ none ∧
    runAgent c9Env c9Gw c9St = c9St :=
  have h := awaiting_approval_invariant c9St c9St Relation.ReflTransGen.refl
    ⟨fun _ => ⟨by decide, by decide⟩, by decide⟩
  ⟨h.1 rfl, h.2 c9Env c9Gw rfl⟩

/-! ## C3: approval resumption executes exactly the pending step -/

/-- Filtering the plan for the unique pending id keeps exactly that step. -/
theorem filter_step_id_eq (p1 p2 : List Step) (step : Step) (sid : Int)
    (hid : step.step_id = some sid)
    (h1 : ∀ s ∈ p1, ¬ s.step_id = some sid)
    (h2 : ∀ s ∈ p2, ¬ s.step_id = some sid) :
    (p1 ++ step :: p2).filter (fun s => decide (s.step_id = some sid)) = [step] := by
  have e1 : p1.filter (fun s => decide (s.step_id = some sid)) = [] := by
    rw [List.filter_eq_nil_iff]
    intro a ha
    simpa using h1 a ha
  have e2 : p2.filter (fun s => decide (s.step_id = some sid)) = [] := by
    rw [List.filter_eq_nil_iff]
    intro a ha
    simpa using h2 a ha
  rw [List.filter_append, e1, List.nil_append, List.filter_cons,
    if_pos (by simpa using hid), e2]

/-- A pre-approved singleton working set executes without a gateway check
and records exactly one result. -/
theorem runStepsLoop_single_approved (env : RunEnv) (gw : PermissionGateway)
    (a : Bool) (step : Step) (st : AOSState)
    (hnores : alookup st.execution_results (stepKey step.step_id) = none) :
    runStepsLoop env gw true a [step] st =
      { st with
          execution_results :=
            aset st.execution_results (stepKey step.step_id)
              (executeStepResult env step st) } := by
  simp only [runStepsLoop]
  rw [hnores]
  rfl

/-- Characterization of `run` right after an approval: the working set is
exactly the pending step, the gateway is skipped, and one result is
recorded. -/
theorem runAgent_approved_eq (env : RunEnv) (gw : PermissionGateway) (sid : Int)
    (p1 p2 : List Step) (step : Step) (st : AOSState)
    (hphase : st.current_phase ≠ some "awaiting_user_approval")
    (hpend : st.memory.pending_approval_step_id = some sid)
    (hplan : st.plan = p1 ++ step :: p2)
    (hid : step.step_id = some sid)
    (h1 : ∀ s ∈ p1, ¬ s.step_id = some sid)
    (h2 : ∀ s ∈ p2, ¬ s.step_id = some sid)
    (hnores : alookup st.execution_results (stepKey step.step_id) = none) :
    runAgent env gw st =
      { st with
          current_phase := some "execution"
          memory := { st.memory with
            allow_retry_failed_steps := false
            pending_approval_step_id := none }
          execution_results :=
            aset st.execution_results (stepKey step.step_id)
              (executeStepResult env step
                { st with
                    current_phase := some "execution"
                    memory := { st.memory with
                      allow_retry_failed_steps := false
                      pending_approval_step_id := none } }) } := by
  unfold runAgent
  rw [if_neg (by simp [hplan]), if_neg hphase]
  dsimp only
  rw [hpend]
  dsimp only
  rw [show ({ st with
      current_phase := some "execution"
      memory := { st.memory with
        allow_retry_failed_steps := false
        pending_approval_step_id := none } } : AOSState).plan =
    p1 ++ step :: p2 from hplan]
  rw [filter_step_id_eq p1 p2 step sid hid h1 h2]
  exact runStepsLoop_single_approved env gw _ step _ hnores

/-- C3: with a pending approval on a unique, not-yet-executed step,
`approve_step` followed by `run` records a result for exactly that step,
leaves every other key of `execution_results` untouched, is independent
of the gateway (the check is bypassed), consumes the pending id, and
finishes in phase `execution`. -/
theorem approve_then_run_executes_pending (env : RunEnv)
    (gw gw' : PermissionGateway) (sid : Int) (p1 p2 : List Step) (step : Step)
    (st : AOSState)
    (hpend : st.memory.pending_approval_step_id = some sid)
    (hplan : st.plan = p1 ++ step :: p2)
    (hid : step.step_id = some sid)
    (h1 : ∀ s ∈ p1, ¬ s.step_id = some sid)
    (h2 : ∀ s ∈ p2, ¬ s.step_id = some sid)
    (hnores : alookup st.execution_results (stepKey step.step_id) = none) :
    alookup (runAgent env gw (approve_step st)).execution_results
        (stepKey step.step_id) =
      some (executeStepResult env step
        { st with
            current_phase := some "execution"
            error := none
            memory := { st.memory with
              pending_approval_step := none
              pending_approval_risk := none
              allow_retry_failed_steps := false
              pending_approval_step_id := none } }) ∧
    (∀ k, k ≠ stepKey step.step_id →
      alookup (runAgent env gw (approve_step st)).execution_results k =
        alookup st.execution_results k) ∧
    runAgent env gw' (approve_step st) = runAgent env gw (approve_step st) ∧
    (runAgent env gw (approve_step st)).memory.pending_approval_step_id = none ∧
    (runAgent env gw (approve_step st)).current_phase = some "execution" := by
  have hph : (approve_step st).current_phase ≠ some "awaiting_user_approval" := by
    intro hc
    simp only [approve_step] at hc
    exact absurd (Option.some.injEq _ _ ▸ hc) (by decide)
  have h := runAgent_approved_eq env gw sid p1 p2 step (approve_step st)
    hph hpend hplan hid h1 h2 hnores
  have h' := runAgent_approved_eq env gw' sid p1 p2 step (approve_step st)
    hph hpend hplan hid h1 h2 hnores
  rw [h, h']
  refine ⟨alookup_aset_self _ _ _, ?_, rfl, rfl, rfl⟩
  intro k hk
  exact alookup_aset_ne _ _ _ _ hk

/-- Concrete environment for the C3 witness. -/
def c3Env : RunEnv :=
  { resolveStep := fun _ _ => (some "open()", none, "python")
    execPython := fun _ => Except.ok ("done", "", 0)
    execShell := fun _ => Except.ok ("", "", 0) }

/-- Concrete gateway for the C3 witness. -/
def c3Gw : PermissionGateway :=
  { workspace_path := "/a/ws", env_abspath := fun s => s }

/-- A second, different gateway for the C3 witness. -/
def c3Gw' : PermissionGateway :=
  { workspace_path := "/other", env_abspath := fun s => "/other/" ++ s }

/-- Concrete previously-blocked step for the C3 witness. -/
def c3Step : Step :=
  { step_id := some 2, description := some "write hello.txt",
    tool := some "file_writer" }

/-- Concrete awaiting-approval state for the C3 witness. -/
def c3St : AOSState :=
  { plan := [c3Step]
    current_phase := some "awaiting_user_approval"
    error := some "需要批准"
    memory := { pending_approval_step := some c3Step
                pending_approval_risk := some "RISKY"
                pending_approval_step_id := some 2 } }

/-- Witness for C3 at a concrete blocked-then-approved state. -/
theorem approve_then_run_executes_pending_witness :
    runAgent c3Env c3Gw' (approve_step c3St) = runAgent c3Env c3Gw (approve_step c3St) ∧
    (runAgent c3Env c3Gw (approve_step c3St)).memory.pending_approval_step_id = none ∧
    alookup (runAgent c3Env c3Gw (approve_step c3St)).execution_results "step_9" =
      alookup c3St.execution_results "step_9" :=
  have h := approve_then_run_executes_pending c3Env c3Gw c3Gw' 2 [] [] c3Step c3St
    rfl rfl rfl (fun s hs => absurd hs (List.not_mem_nil s))
    (fun s hs => absurd hs (List.not_mem_nil s)) rfl
  ⟨h.2.2.1, h.2.2.2.1, h.2.1 "step_9" (by decide)⟩

/-! ## C6 and C7: the REPLAN action of the recovery agent -/

/-- One step of the failed-result dropping fold. -/
theorem dropFailedResults_cons (results : List (String × ResultR))
    (q : String × Verdict) (fb : List (String × Verdict)) :
    dropFailedResults results (q :: fb) =
      dropFailedResults
        (if q.2.status = VERIFY_STATUS_FAILED then apop results q.1 else results) fb := rfl

/-- Dropping failed results never resurrects an absent key. -/
theorem dropFailedResults_none_of_none (results : List (String × ResultR))
    (fb : List (String × Verdict)) (k : String)
    (h : alookup results k = none) :
    alookup (dropFailedResults results fb) k = none := by
  induction fb generalizing results with
  | nil => exact h
  | cons q fb' ih =>
    rw [dropFailedResults_cons]
    by_cases hq : q.2.status = VERIFY_STATUS_FAILED
    · rw [if_pos hq]
      exact ih _ (alookup_apop_of_none _ _ _ h)
    · rw [if_neg hq]
      exact ih _ h

/-- A key carrying a FAILED verdict loses its execution result. -/
theorem dropFailedResults_lookup_none (results : List (String × ResultR))
    (fb : List (String × Verdict)) (k : String)
    (hnd : (results.map Prod.fst).Nodup)
    (hfail : ∃ p ∈ fb, p.1 = k ∧ p.2.status = VERIFY_STATUS_FAILED) :
    alookup (dropFailedResults results fb) k = none := by
  induction fb generalizing results with
  | nil =>
    obtain ⟨p, hp, _⟩ := hfail
    exact absurd hp (List.not_mem_nil p)
  | cons q fb' ih =>
    rw [dropFailedResults_cons]
    by_cases hq : q.2.status = VERIFY_STATUS_FAILED
    · rw [if_pos hq]
      by_cases hqk : q.1 = k
      · refine dropFailedResults_none_of_none _ _ _ ?_
        rw [hqk]
        exact alookup_apop_self results k hnd
      · obtain ⟨p, hp, hpk, hps⟩ := hfail
        have hp' : p ∈ fb' := by
          rcases List.mem_cons.mp hp with hh | hh
          · exact absurd (hh ▸ hpk) hqk
          · exact hh
        exact ih _ (nodup_keys_apop _ _ hnd) ⟨p, hp', hpk, hps⟩
    · rw [if_neg hq]
      obtain ⟨p, hp, hpk, hps⟩ := hfail
      have hp' : p ∈ fb' := by
        rcases List.mem_cons.mp hp with hh | hh
        · exact absurd (hh ▸ hps) hq
        · exact hh
      exact ih _ hnd ⟨p, hp', hpk, hps⟩

/-- A key with no FAILED verdict keeps its execution result. -/
theorem dropFailedResults_lookup_preserved (results : List (String × ResultR))
    (fb : List (String × Verdict)) (k : String)
    (h : ∀ p ∈ fb, p.1 = k → p.2.status ≠ VERIFY_STATUS_FAILED) :
    alookup (dropFailedResults results fb) k = alookup results k := by
  induction fb generalizing results with
  | nil => rfl
  | cons q fb' ih =>
    rw [dropFailedResults_cons]
    by_cases hq : q.2.status = VERIFY_STATUS_FAILED
    · have hqk : q.1 ≠ k := fun e => h q (by simp) e hq
      rw [if_pos hq, ih _ fun p hp => h p (by simp [hp])]
      exact alookup_apop_ne _ _ _ fun e => hqk e.symm
    · rw [if_neg hq]
      exact ih _ fun p hp => h p (by simp [hp])

/-- The seed is below a max fold. -/
theorem init_le_foldl_max (x : Int) (xs : List Int) : x ≤ xs.foldl max x := by
  induction xs generalizing x with
  | nil => exact le_refl x
  | cons y ys ih =>
    calc x ≤ max x y := le_max_left x y
    _ ≤ List.foldl max (max x y) ys := ih (max x y)

/-- Every member is below a max fold. -/
theorem mem_le_foldl_max (xs : List Int) (x a : Int) (h : a ∈ xs) :
    a ≤ xs.foldl max x := by
  induction xs generalizing x with
  | nil => exact absurd h (List.not_mem_nil a)
  | cons y ys ih =>
    rcases List.mem_cons.mp h with hh | hh
    · subst hh
      calc a ≤ max x a := le_max_right x a
      _ ≤ List.foldl max (max x a) ys := init_le_foldl_max _ ys
    · exact ih (max x y) hh

/-- `maxStepId` dominates every step's id (with the `None → 0` default of
`s.get("step_id", 0)`). -/
theorem le_maxStepId (plan : List Step) (s : Step) (hs : s ∈ plan) :
    s.step_id.getD 0 ≤ maxStepId plan := by
  unfold maxStepId
  cases hp : plan.map (fun s => s.step_id.getD 0) with
  | nil =>
    rw [List.map_eq_nil_iff] at hp
    rw [hp] at hs
    exact absurd hs (List.not_mem_nil s)
  | cons x xs =>
    have hmem : s.step_id.getD 0 ∈ x :: xs := by
      rw [← hp]
      exact List.mem_map_of_mem _ hs
    rcases List.mem_cons.mp hmem with hh | hh
    · rw [hh]
      exact init_le_foldl_max x xs
    · exact mem_le_foldl_max xs x _ hh

/-- Full characterization of `recover` on the REPLAN path (below the
retry ceiling, with a strategist answer normalizing to REPLAN). -/
theorem recover_replan_eq (f : AOSState → StrategistAnswer) (mr : Nat) (st : AOSState)
    (hceil : st.retry_count < mr)
    (hstrat : normStrategy
      (f { st with current_phase := some "recovery" }).strategy = STRATEGY_REPLAN) :
    recover f mr st =
      ({ st with
          current_phase := some "recovery"
          memory := { st.memory with
            recovery_reason :=
              some ((f { st with current_phase := some "recovery" }).reason.getD "") }
          execution_results :=
            dropFailedResults st.execution_results st.verification_feedback
          plan :=
            if ((f { st with current_phase := some "recovery" }).new_steps.getD
                []).isEmpty then st.plan
            else
              st.plan ++ renumberNewSteps (maxStepId st.plan)
                ((f { st with current_phase := some "recovery" }).new_steps.getD [])
          retry_count := st.retry_count + 1 }, STRATEGY_REPLAN) := by
  unfold recover
  dsimp only
  rw [if_neg (by omega), if_pos hstrat]
  by_cases hns :
    ((f { st with current_phase := some "recovery" }).new_steps.getD []).isEmpty
  · rw [if_pos hns, if_pos hns]
  · rw [if_neg hns, if_neg hns]

/-- C6: on a strategist answer normalizing to REPLAN (below the ceiling),
`recover` returns REPLAN, drops the execution result of every key with a
FAILED verdict (and only those), appends the strategist's `new_steps`
(renumbered where id-less) after the existing plan, and increments
`retry_count` by exactly 1. -/
theorem recover_replan_effects (f : AOSState → StrategistAnswer) (mr : Nat)
    (st : AOSState) (hceil : st.retry_count < mr)
    (hstrat : normStrategy
      (f { st with current_phase := some "recovery" }).strategy = STRATEGY_REPLAN)
    (hnd : (st.execution_results.map Prod.fst).Nodup) :
    (recover f mr st).2 = STRATEGY_REPLAN ∧
    (recover f mr st).1.retry_count = st.retry_count + 1 ∧
    (recover f mr st).1.plan =
      st.plan ++ renumberNewSteps (maxStepId st.plan)
        ((f { st with current_phase := some "recovery" }).new_steps.getD []) ∧
    (∀ k, (∃ p ∈ st.verification_feedback,
        p.1 = k ∧ p.2.status = VERIFY_STATUS_FAILED) →
      alookup (recover f mr st).1.execution_results k = none) ∧
    (∀ k, (∀ p ∈ st.verification_feedback,
        p.1 = k → p.2.status ≠ VERIFY_STATUS_FAILED) →
      alookup (recover f mr st).1.execution_results k =
        alookup st.execution_results k) := by
  rw [recover_replan_eq f mr st hceil hstrat]
  refine ⟨rfl, rfl, ?_, ?_, ?_⟩
  · dsimp only
    by_cases hns :
      ((f { st with current_phase := some "recovery" }).new_steps.getD []).isEmpty
    · rw [if_pos hns, List.isEmpty_iff.mp hns]
      simp [renumberNewSteps]
    · rw [if_neg hns]
  · intro k hk
    exact dropFailedResults_lookup_none _ _ _ hnd hk
  · intro k hk
    exact dropFailedResults_lookup_preserved _ _ _ hk

/-- Concrete strategist for the C6 witness: REPLAN with one id-less step. -/
def c6F : AOSState → StrategistAnswer := fun _ =>
  { strategy := some " replan ", reason := some "retryable"
    new_steps := some [{ description := some "fix it", tool := some "file_writer" }] }

/-- Concrete state for the C6 witness: step 1 failed, step 0 succeeded. -/
def c6St : AOSState :=
  { plan := [{ step_id := some 0 }, { step_id := some 1 }]
    execution_results :=
      [("step_0", { result := "ok", exit_code := some 0, success := true }),
       ("step_1", { result := "boom", exit_code := some 2, success := false })]
    verification_feedback :=
      [("step_0", ⟨"SUCCESS", "exit_code=0，执行成功", ""⟩),
       ("step_1", ⟨"FAILED", "exit_code=2", ""⟩)]
    retry_count := 0 }

/-- Witness for C6 at a concrete failed state. -/
theorem recover_replan_effects_witness :
    (recover c6F 3 c6St).2 = STRATEGY_REPLAN ∧
    (recover c6F 3 c6St).1.retry_count = c6St.retry_count + 1 ∧
    alookup (recover c6F 3 c6St).1.execution_results "step_1" = none ∧
    alookup (recover c6F 3 c6St).1.execution_results "step_0" =
      alookup c6St.execution_results "step_0" := by
  have h := recover_replan_effects c6F 3 c6St (by decide) (by decide) (by decide)
  exact ⟨h.1, h.2.1, h.2.2.2.1 "step_1" (by decide),
    h.2.2.2.2 "step_0" (by decide)⟩

/-- Concrete strategist for the C7 counterexample: REPLAN whose new step
carries the explicit id 1, below the existing maximum 5. -/
def c7F : AOSState → StrategistAnswer := fun _ =>
  { strategy := some "REPLAN", reason := some "r"
    new_steps := some [{ step_id := some 1, description := some "late step" }] }

/-- Concrete state for the C7 counterexample. -/
def c7St : AOSState := { plan := [{ step_id := some 5 }] }

/-- C7 counterexample: `recover` appends a strategist-supplied step with
explicit id 1 after a pre-existing step with id 5, so the appended id is
not strictly greater than every pre-existing id (the code renumbers only
id-less steps and never validates explicit ids). -/
theorem replan_monotonic_ids_cex :
    ((recover c7F 3 c7St).1.plan.drop c7St.plan.length).map Step.step_id =
        [some 1] ∧
    c7St.plan.map Step.step_id = [some 5] ∧
    ¬ ((1 : Int) > 5) :=
  ⟨by decide, by decide, by decide⟩

/-- C7 (amended): after a REPLAN whose `new_steps` all lack ids, the
appended tail is the input steps renumbered in order starting at
`max(existing step_id) + 1`, and every appended step's id is strictly
greater than every pre-existing step's id.  (Strategist-supplied explicit
ids are appended unchanged, which is what the counterexample exploits.) -/
theorem replan_monotonic_ids_for_unnumbered (f : AOSState → StrategistAnswer)
    (mr : Nat) (st : AOSState) (hceil : st.retry_count < mr)
    (hstrat : normStrategy
      (f { st with current_phase := some "recovery" }).strategy = STRATEGY_REPLAN)
    (hnone : ∀ s ∈ (f { st with current_phase := some "recovery" }).new_steps.getD [],
      s.step_id = none) :
    (recover f mr st).1.plan =
      st.plan ++ renumberNewSteps (maxStepId st.plan)
        ((f { st with current_phase := some "recovery" }).new_steps.getD []) ∧
    (∀ j, j < ((f { st with current_phase := some "recovery" }).new_steps.getD
        []).length →
      (renumberNewSteps (maxStepId st.plan)
          ((f { st with current_phase := some "recovery" }).new_steps.getD []))[j]? =
        (((f { st with current_phase := some "recovery" }).new_steps.getD
            [])[j]?).map
          (fun s => { s with step_id := some (maxStepId st.plan + 1 + (j : Int)) })) ∧
    (∀ t ∈ renumberNewSteps (maxStepId st.plan)
        ((f { st with current_phase := some "recovery" }).new_steps.getD []),
      ∀ s ∈ st.plan, ∀ oid nid : Int,
        s.step_id = some oid → t.step_id = some nid → oid < nid) := by
  refine ⟨?_, ?_, ?_⟩
  · rw [recover_replan_eq f mr st hceil hstrat]
    dsimp only
    by_cases hns :
      ((f { st with current_phase := some "recovery" }).new_steps.getD []).isEmpty
    · rw [if_pos hns, List.isEmpty_iff.mp hns]
      simp [renumberNewSteps]
    · rw [if_neg hns]
  · intro j hj
    unfold renumberNewSteps
    rw [List.getElem?_map, List.getElem?_enum]
    cases hg : ((f { st with current_phase := some "recovery" }).new_steps.getD
        [])[j]? with
    | none => rfl
    | some s =>
      have hsmem : s ∈ (f { st with current_phase := some "recovery" }).new_steps.getD
          [] := by
        obtain ⟨hlt, he⟩ := List.getElem?_eq_some.mp hg
        rw [← he]
        exact List.getElem_mem _
      simp only [Option.map_some']
      rw [if_pos (hnone s hsmem)]
  · intro t ht s hs oid nid hsid htid
    unfold renumberNewSteps at ht
    obtain ⟨pr, hmem, hteq⟩ := List.mem_map.mp ht
    have hmem' := List.mem_enum_iff_getElem?.mp hmem
    have hsmem : pr.2 ∈ (f { st with current_phase := some "recovery" }).new_steps.getD
        [] := by
      obtain ⟨hlt, he⟩ := List.getElem?_eq_some.mp hmem'
      rw [← he]
      exact List.getElem_mem _
    rw [← hteq, if_pos (hnone pr.2 hsmem)] at htid
    simp only [Option.some.injEq] at htid
    have h1 : oid ≤ maxStepId st.plan := by
      have h2 := le_maxStepId st.plan s hs
      rw [hsid] at h2
      exact h2
    have h3 : (0 : Int) ≤ (pr.1 : Int) := Int.natCast_nonneg pr.1
    omega

/-- Concrete strategist for the C7 amended-claim witness: two id-less
steps appended after an existing step with id 5. -/
def c7wF : AOSState → StrategistAnswer := fun _ =>
  { strategy := some "REPLAN"
    new_steps := some [{ description := some "n1" }, { description := some "n2" }] }

/-- Concrete state for the C7 amended-claim witness. -/
def c7wSt : AOSState := { plan := [{ step_id := some 5 }] }

/-- Witness for the amended C7 at concrete inputs: the tail is numbered
6, 7 and each new id exceeds the pre-existing id 5. -/
theorem replan_monotonic_ids_for_unnumbered_witness :
    (recover c7wF 3 c7wSt).1.plan =
      c7wSt.plan ++ renumberNewSteps (maxStepId c7wSt.plan)
        ((c7wF { c7wSt with current_phase := some "recovery" }).new_steps.getD []) ∧
    (5 : Int) < 6 := by
  have h := replan_monotonic_ids_for_unnumbered c7wF 3 c7wSt (by decide) (by decide)
    (by decide)
  refine ⟨h.1, ?_⟩
  exact h.2.2 { description := some "n1", step_id := some 6 } (by decide)
    { step_id := some 5 } (by decide) 5 6 rfl rfl

/-- Concrete judge for the C8 witness. -/
def c8Judge : String → String → Bool → String := fun _ _ _ => "未达成"

/-- Concrete state for the C8 witness: one succeeded step, one unexecuted
step, and a stale FAILED feedback entry. -/
def c8St : AOSState :=
  { plan := [{ step_id := some 1, expected_outcome := some "ok" },
             { step_id := some 2 }]
    execution_results :=
      [("step_1", { result := "out", stdout := some "out", stderr := some "",
                    exit_code := some 0, success := true })]
    verification_feedback := [("step_9", ⟨"FAILED", "stale", ""⟩)] }

/-- Witness for C8 at a concrete state (both conjuncts instantiated). -/
theorem verify_verdicts_and_failures_witness :
    (∃ v, alookup (verifyState c8Judge false c8St).verification_feedback
        (stepKey (some 2)) = some v ∧
      v.status = statusOfKey c8St.execution_results (stepKey (some 2))) ∧
    (has_verification_failures c8St = true ↔
      ∃ p ∈ c8St.verification_feedback, p.2.status = VERIFY_STATUS_FAILED) :=
  ⟨(verify_verdicts_and_failures c8Judge false c8St).1 { step_id := some 2 }
      (by simp [c8St]),
    (verify_verdicts_and_failures c8Judge false c8St).2⟩

end AOS
